import Mathlib

/-!
Shallow embedding of the `walletcontroller` package of `btc-staker`
(`src/walletcontroller/client.go` and the interface/status declarations in
`src/unnamed/part_000`), together with theorems checking the natural-language
specification against it.

Modelling conventions:
* Machine integers (`int64`, `btcutil.Amount`, indices) are `Nat`; all values
  appearing here are non-negative in the source.
* Transaction hashes / txids are `Nat` (opaque hash values).
* Fallible Go calls returning `(T, error)` become `Except String T`.
* A Go `panic` is modelled by an `Option`-wrapped result, `none` = process abort.
* Remote RPC calls go through an explicit `RpcOracle` (the response of the
  backend) and every controller operation additionally returns the list of
  backend `RpcCall`s it issued, so "no RPC was issued" is a provable statement.
* External library functions (lnd's notifier, btcd's `bip322`/`txscript`
  helpers, certificate reading, client construction) are fields of
  `ExternalFns`, quantified over in the theorems.
-/

/-- Wallet-level transaction status, from `src/unnamed/part_000`:
`TxNotFound | TxInMemPool | TxInChain` (a Go `int` enum). -/
inductive TxStatus where
  | TxNotFound
  | TxInMemPool
  | TxInChain
deriving DecidableEq, Repr

export TxStatus (TxNotFound TxInMemPool TxInChain)

/-- Raw confirmation state of the external lnd `chainntnfs` notifier
(`notifier.TxConfStatus`, a Go integer enum). Modelled as `Nat` since the
source treats it as an open external vocabulary. -/
abbrev TxConfStatus := Nat

/-- lnd `chainntnfs.TxNotFoundIndex` (first `iota` value). -/
def TxNotFoundIndex : TxConfStatus := 0
/-- lnd `chainntnfs.TxFoundMempool`. -/
def TxFoundMempool : TxConfStatus := 1
/-- lnd `chainntnfs.TxFoundIndex`. -/
def TxFoundIndex : TxConfStatus := 2
/-- lnd `chainntnfs.TxNotFoundManually`. -/
def TxNotFoundManually : TxConfStatus := 3
/-- lnd `chainntnfs.TxFoundManually`. -/
def TxFoundManually : TxConfStatus := 4

/-- `wire.OutPoint`: previous transaction id plus output index. -/
structure OutPoint where
  txid : Nat
  vout : Nat
deriving DecidableEq, Repr

/-- `wire.TxOut`: output value and its public-key script (byte list). -/
structure TxOut where
  value : Nat
  pkScript : List Nat
deriving DecidableEq, Repr

/-- `wire.TxIn`: previous outpoint and the witness stack (list of byte lists). -/
structure TxIn where
  previousOutPoint : OutPoint
  witness : List (List Nat)
deriving DecidableEq, Repr

/-- `wire.MsgTx`: the transaction fields the embedded code inspects. -/
structure MsgTx where
  txIn : List TxIn
  txOut : List TxOut
deriving DecidableEq, Repr

/-- `btcjson.RawTxWitnessInput`: the explicit per-input hint handed to
`SignRawTransactionWithWallet2`.  `scriptPubKey` is the hex-encoded script
(a char list standing for the Go hex string); `amount` models the
`*float64` value-hint pointer. -/
structure RawTxWitnessInput where
  txid : Nat
  vout : Nat
  scriptPubKey : List Char
  amount : Option Nat
deriving DecidableEq, Repr

/-- `notifier.ConfRequest`: confirmation request built from a tx hash and a
pk script by the external `notifier.NewConfRequest`. -/
structure ConfRequest where
  txid : Nat
  pkScript : List Nat
deriving DecidableEq, Repr

/-- `notifier.TxConfirmation`: block position data of a confirmed transaction. -/
structure TxConfirmation where
  blockHeight : Nat
  blockHash : Nat
  txIndex : Nat
deriving DecidableEq, Repr

/-- One row of the backend `listunspent` result (`btcjson.ListUnspentResult`):
outpoint, value, owning script/address, spendability flag, confirmations. -/
structure ListUnspentResult where
  txid : Nat
  vout : Nat
  address : Nat
  scriptPubKey : List Nat
  amount : Nat
  confirmations : Nat
  spendable : Bool
deriving DecidableEq, Repr

/-- Modelled from the spec: the repository's `Utxo` record (its defining file
is not under `src/`; `src/unnamed/part_000` only declares it in the
`WalletController` interface). Per spec §3, an Unspent Output carries an
outpoint, a value and the owning script. -/
structure Utxo where
  amount : Nat
  outPoint : OutPoint
  pkScript : List Nat
deriving DecidableEq, Repr

/-- `chaincfg.Params`: only the `Name` field is read by the embedded code. -/
structure ChainParams where
  name : String
deriving DecidableEq, Repr

/-- Modelled from the spec: `types.SupportedWalletBackend` (the `types`
package is not under `src/`). A Go integer enum; spec §3 Backend Variant:
one of two variants, fixed at construction. The node-wallet (bitcoind)
variant. -/
def BitcoindWalletBackend : Nat := 0

/-- Modelled from the spec: the standalone-wallet (btcwallet) variant of
`types.SupportedWalletBackend`. -/
def BtcwalletWalletBackend : Nat := 1

/-- `RpcWalletController` (src/walletcontroller/client.go): the fields fixed at
construction. The embedded `rpcclient.Client` session handle is modelled
by passing an `RpcOracle` to each operation. -/
structure RpcWalletController where
  walletPassphrase : String
  network : String
  backend : Nat
deriving DecidableEq, Repr

/-- One backend RPC invocation, recorded in the trace an operation returns. -/
inductive RpcCall where
  | listUnspent
  | signRawTransactionWithWallet (tx : MsgTx)
  | signRawTransactionBtcwallet (tx : MsgTx)
  | signRawTransactionWithWallet2 (tx : MsgTx) (inputs : List RawTxWitnessInput)
  | confDetailsFromTxIndex (req : ConfRequest) (msg : String)
  | sendRawTransaction (tx : MsgTx) (allowHighFees : Bool)
deriving DecidableEq, Repr

/-- Responses of the remote backend for each RPC shape the embedded code uses. -/
structure RpcOracle where
  listUnspent : Except String (List ListUnspentResult)
  signRawTransactionWithWallet : MsgTx → Except String (MsgTx × Bool)
  signRawTransactionBtcwallet : MsgTx → Except String (MsgTx × Bool)
  signRawTransactionWithWallet2 :
      MsgTx → List RawTxWitnessInput → Except String (MsgTx × Bool)
  confDetailsFromTxIndex :
      ConfRequest → String → Except String (Option TxConfirmation × TxConfStatus)

/-- External pure library functions consumed by the embedded code:
bip322 to-spend/to-sign construction, hashing, confirmation-request and
change-script construction, certificate reading and RPC-client creation. -/
structure ExternalFns where
  getToSpendTx : List Nat → String → Except String MsgTx
  getToSignTx : MsgTx → MsgTx
  txHash : MsgTx → Nat
  newConfRequest : Nat → List Nat → Except String ConfRequest
  payToAddrScript : String → Except String (List Nat)
  readCertFile : String → String → Except String (List Nat)
  rpcclientNew : String → String → String → Bool → Except String Unit

/-- Lower-case hex digit, as produced by Go's `hex.EncodeToString`. -/
def hexDigit (n : Nat) : Char :=
  if n < 10 then Char.ofNat (48 + n) else Char.ofNat (87 + n)

/-- Go `hex.EncodeToString` over a byte list, two lowercase digits per byte. -/
def hexEncode (bs : List Nat) : List Char :=
  bs.flatMap (fun b => [hexDigit ((b % 256) / 16), hexDigit (b % 16)])

/-- btcd `txscript.IsPayToWitnessPubKeyHash`: the script is exactly 22 bytes,
`OP_0` (0x00) followed by `OP_DATA_20` (0x14) and a 20-byte hash. -/
def isPayToWitnessPubKeyHash (script : List Nat) : Bool :=
  script.length = 22 && script.headD 1 = 0 && (script.drop 1).headD 0 = 20

/-- `txNotFoundErrMsgBtcd` constant of client.go. -/
def txNotFoundErrMsgBtcd : String := "No information available about transaction"

/-- `txNotFoundErrMsgBitcoind` constant of client.go. -/
def txNotFoundErrMsgBitcoind : String := "No such mempool or blockchain transaction"

/-- The `"invalid bitcoin backend"` error of the backend dispatch arms. -/
def invalidBackendMsg : String := "invalid bitcoin backend"

/-- The `CreateAndSignTx` error when not all inputs were signed. -/
def notAllSignedMsg : String := "not all transactions inputs could be signed"

/-- The `SignBip322NativeSegwit` error for non-native-segwit scripts. -/
def bip322UnsupportedMsg : String :=
  "Bip322NativeSegwit support only native segwit addresses"

/-- The `SignBip322NativeSegwit` error when the wallet signed no full witness. -/
def bip322NotControlledMsg (address : String) : String :=
  "failed to create bip322 signature, address " ++ address ++
    " is not under wallet control"

/-- `nofitierStateToWalletState` (client.go, lines 230-245): maps the raw
notifier confirmation state onto the 3-state wallet domain; any state outside
the five known ones panics (`none`). -/
def nofitierStateToWalletState (state : TxConfStatus) : Option TxStatus :=
  if state = TxNotFoundIndex then some TxNotFound
  else if state = TxFoundMempool then some TxInMemPool
  else if state = TxFoundIndex then some TxInChain
  else if state = TxNotFoundManually then some TxNotFound
  else if state = TxFoundManually then some TxInChain
  else none

set_option linter.unusedVariables false in
/-- `NewRpcWalletControllerFromArgs` (client.go, lines 52-95): reads the TLS
certificate when TLS is enabled, creates the RPC client, and stores the
passphrase, `params.Name` and the backend variant. -/
def NewRpcWalletControllerFromArgs (ext : ExternalFns)
    (host user pass network walletPassphrase : String) (nodeBackend : Nat)
    (params : ChainParams) (disableTls : Bool)
    (rawWalletCert walletCertFilePath : String) :
    Except String RpcWalletController :=
  let readCert : Except String Unit :=
    if !disableTls then
      match ext.readCertFile rawWalletCert walletCertFilePath with
      | .error e => .error e
      | .ok _ => .ok ()
    else .ok ()
  match readCert with
  | .error e => .error e
  | .ok _ =>
    match ext.rpcclientNew host user pass disableTls with
    | .error e => .error e
    | .ok _ =>
      .ok { walletPassphrase := walletPassphrase
            network := params.name
            backend := nodeBackend }

/-- `NetworkName` (client.go, lines 133-135). -/
def NetworkName (w : RpcWalletController) : String := w.network

/-- `SignRawTransaction` (client.go, lines 199-208): dispatches the signing
RPC on the statically configured backend variant. -/
def SignRawTransaction (w : RpcWalletController) (o : RpcOracle) (tx : MsgTx) :
    Except String (MsgTx × Bool) × List RpcCall :=
  if w.backend = BitcoindWalletBackend then
    (o.signRawTransactionWithWallet tx, [.signRawTransactionWithWallet tx])
  else if w.backend = BtcwalletWalletBackend then
    (o.signRawTransactionBtcwallet tx, [.signRawTransactionBtcwallet tx])
  else
    (.error invalidBackendMsg, [])

/-- `getTxDetails` (client.go, lines 247-255): queries the tx index and maps
the notifier state; `none` models the panic of the state mapper. -/
def getTxDetails (o : RpcOracle) (req : ConfRequest) (msg : String) :
    Option ((Option TxConfirmation × TxStatus × Option String) × List RpcCall) :=
  match o.confDetailsFromTxIndex req msg with
  | .error e => some ((none, TxNotFound, some e), [.confDetailsFromTxIndex req msg])
  | .ok (res, state) =>
    match nofitierStateToWalletState state with
    | none => none
    | some st => some ((res, st, none), [.confDetailsFromTxIndex req msg])

/-- `TxDetails` (client.go, lines 258-273): builds the confirmation request and
dispatches the index query on the backend variant. The triple is the Go
`(*notifier.TxConfirmation, TxStatus, error)` result. -/
def TxDetails (w : RpcWalletController) (ext : ExternalFns) (o : RpcOracle)
    (txHash : Nat) (pkScript : List Nat) :
    Option ((Option TxConfirmation × TxStatus × Option String) × List RpcCall) :=
  match ext.newConfRequest txHash pkScript with
  | .error e => some ((none, TxNotFound, some e), [])
  | .ok req =>
    if w.backend = BitcoindWalletBackend then
      getTxDetails o req txNotFoundErrMsgBitcoind
    else if w.backend = BtcwalletWalletBackend then
      getTxDetails o req txNotFoundErrMsgBtcd
    else
      some ((none, TxNotFound, some invalidBackendMsg), [])

/-- `SignBip322NativeSegwit` (client.go, lines 280-314): builds the bip322
to-spend transaction, rejects non-P2WPKH output scripts, signs the to-sign
transaction with one explicit input hint, and returns the witness of input 0.
`none` models a Go index-out-of-range panic (empty `TxOut`/`TxIn`). -/
def SignBip322NativeSegwit (ext : ExternalFns) (o : RpcOracle)
    (msg : List Nat) (address : String) :
    Option (Except String (List (List Nat)) × List RpcCall) :=
  match ext.getToSpendTx msg address with
  | .error e => some (.error ("failed to bip322 to spend tx: " ++ e), [])
  | .ok toSpend =>
    match toSpend.txOut.head? with
    | none => none
    | some out0 =>
      if !isPayToWitnessPubKeyHash out0.pkScript then
        some (.error bip322UnsupportedMsg, [])
      else
        let toSpendhash := ext.txHash toSpend
        let toSign := ext.getToSignTx toSpend
        let hints : List RawTxWitnessInput :=
          [{ txid := toSpendhash
             vout := 0
             scriptPubKey := hexEncode out0.pkScript
             amount := some 0 }]
        match o.signRawTransactionWithWallet2 toSign hints with
        | .error e =>
          some (.error ("failed to sign raw transaction while creating bip322 signature: " ++ e),
            [.signRawTransactionWithWallet2 toSign hints])
        | .ok (signed, all) =>
          if !all then
            some (.error (bip322NotControlledMsg address),
              [.signRawTransactionWithWallet2 toSign hints])
          else
            match signed.txIn.head? with
            | none => none
            | some in0 =>
              some (.ok in0.witness, [.signRawTransactionWithWallet2 toSign hints])

/-- Modelled from the spec: `resultsToUtxos` (its defining file is not under
`src/`). Spec §4.1: "fetch all currently spendable unspent outputs"; with the
spendability filter enabled only rows whose spendability flag is set become
candidate UTXOs. -/
def resultsToUtxos (results : List ListUnspentResult) (onlySpendable : Bool) :
    Except String (List Utxo) :=
  .ok ((results.filter (fun r => !onlySpendable || r.spendable)).map
    (fun r => { amount := r.amount
                outPoint := { txid := r.txid, vout := r.vout }
                pkScript := r.scriptPubKey }))

/-- Modelled from the spec: the outpoint order used as the sort tie-break —
lexicographic on (txid, output index). -/
def outPointLE (a b : OutPoint) : Prop :=
  a.txid < b.txid ∨ (a.txid = b.txid ∧ a.vout ≤ b.vout)

/-- Modelled from the spec: the candidate order of the `byAmount` comparator
under `sort.Reverse` (the comparator's file is not under `src/`). Spec §4.1:
"sort by value descending (largest-first, deterministic tie-break by
outpoint)". `u` comes before `v` when `u` has the larger value, or on equal
values when `u`'s outpoint is not after `v`'s. -/
def utxoBefore (u v : Utxo) : Prop :=
  v.amount < u.amount ∨ (u.amount = v.amount ∧ outPointLE u.outPoint v.outPoint)

instance (a b : OutPoint) : Decidable (outPointLE a b) := by
  unfold outPointLE; infer_instance

instance (u v : Utxo) : Decidable (utxoBefore u v) := by
  unfold utxoBefore; infer_instance

/-- The `sort.Sort(sort.Reverse(byAmount(utxos)))` call of `CreateTransaction`
(client.go, line 156) with the spec-modelled comparator. -/
def sortUtxos (l : List Utxo) : List Utxo := l.insertionSort utxoBefore

instance : IsTotal Utxo utxoBefore := by
  constructor
  intro a b
  unfold utxoBefore outPointLE
  omega

instance : IsTrans Utxo utxoBefore := by
  constructor
  intro a b c hab hbc
  unfold utxoBefore outPointLE at *
  omega

/-- Total value of a UTXO list. -/
def utxoTotal (l : List Utxo) : Nat := (l.map Utxo.amount).sum

/-- Total value of an output list. -/
def outTotal (l : List TxOut) : Nat := (l.map TxOut.value).sum

/-- Modelled from the spec: serialized size of one output (8-byte value, a
script-length byte, the script). Part of the size-dependent fee model of
spec §4.1. -/
def outputSerializeSize (o : TxOut) : Nat := 9 + o.pkScript.length

/-- Modelled from the spec: estimated transaction size for a given input
count, the requested outputs and a change output — spec §4.1 "fee is
recomputed iteratively as the candidate input/output count changes estimated
size". -/
def estimatedTxSize (numInputs : Nat) (outputs : List TxOut)
    (changeScriptLen : Nat) : Nat :=
  10 + 148 * numInputs + (outputs.map outputSerializeSize).sum +
    (9 + changeScriptLen)

/-- Modelled from the spec: fee implied by a size at a given rate per 1000
bytes (spec §4.1 "a fee rate (value per 1000 bytes)"). -/
def feeForSize (feeRatePerKb size : Nat) : Nat := feeRatePerKb * size / 1000

/-- Modelled from the spec: the dust threshold below which a change remainder
is omitted (spec §4.1; the standard relay dust bound). -/
def dustThreshold : Nat := 546

/-- The value a selection of `k` inputs must cover: requested total plus the
size-implied fee at `k` inputs. -/
def neededFor (feeRatePerKb : Nat) (outputs : List TxOut)
    (changeScriptLen target k : Nat) : Nat :=
  target + feeForSize feeRatePerKb (estimatedTxSize k outputs changeScriptLen)

/-- Modelled from the spec: greedy input accumulation of §4.1 — walk the
sorted candidates, accumulating inputs until the covered value reaches the
requested value plus the fee for the current input count; `none` when the
candidates are exhausted first. -/
def selectUtxos (need : Nat → Nat) :
    List Utxo → List Utxo → Nat → Option (List Utxo × Nat)
  | [], acc, covered =>
    if covered ≥ need acc.length then some (acc.reverse, covered) else none
  | u :: rest, acc, covered =>
    if covered ≥ need acc.length then some (acc.reverse, covered)
    else selectUtxos need rest (u :: acc) (covered + u.amount)

/-- The `buildTxFromOutputs` error when no eligible outputs exist. -/
def noUsableFundsMsg : String :=
  "there must be at least 1 usable UTXO to build transaction"

/-- The `buildTxFromOutputs` error when the candidates cannot cover the
request plus fee. -/
def insufficientFundsMsg : String := "insufficient funds"

/-- Modelled from the spec: `buildTxFromOutputs` (its defining file is not
under `src/`). Spec §4.1: fails `NoUsableFunds` on an empty eligible set;
accumulates sorted inputs until covered value ≥ requested value + size-implied
fee, failing `InsufficientFunds` otherwise; appends a change output for the
remainder unless it is below the dust threshold. -/
def buildTxFromOutputs (utxos : List Utxo) (outputs : List TxOut)
    (feeRatePerKb : Nat) (changeScript : List Nat) : Except String MsgTx :=
  if utxos.isEmpty then .error noUsableFundsMsg
  else
    let target := outTotal outputs
    let need := neededFor feeRatePerKb outputs changeScript.length target
    match selectUtxos need utxos [] 0 with
    | none => .error insufficientFundsMsg
    | some (selected, covered) =>
      let fee := feeForSize feeRatePerKb
        (estimatedTxSize selected.length outputs changeScript.length)
      let changeAmt := covered - target - fee
      let outs :=
        if dustThreshold ≤ changeAmt then
          outputs ++ [{ value := changeAmt, pkScript := changeScript }]
        else outputs
      .ok { txIn := selected.map (fun u => { previousOutPoint := u.outPoint, witness := [] })
            txOut := outs }

set_option linter.unusedVariables false in
/-- `CreateTransaction` (client.go, lines 137-171): list unspent outputs,
keep the spendable ones, sort largest-first, build the change script and
hand everything to the transaction builder. Read-only against the backend. -/
def CreateTransaction (w : RpcWalletController) (ext : ExternalFns)
    (o : RpcOracle) (outputs : List TxOut) (feeRatePerKb : Nat)
    (changeAddres : String) : Except String MsgTx × List RpcCall :=
  match o.listUnspent with
  | .error e => (.error e, [.listUnspent])
  | .ok utxoResults =>
    match resultsToUtxos utxoResults true with
    | .error e => (.error e, [.listUnspent])
    | .ok utxos =>
      let sorted := sortUtxos utxos
      match ext.payToAddrScript changeAddres with
      | .error e => (.error e, [.listUnspent])
      | .ok changeScript =>
        match buildTxFromOutputs sorted outputs feeRatePerKb changeScript with
        | .error e => (.error e, [.listUnspent])
        | .ok tx => (.ok tx, [.listUnspent])

/-- `CreateAndSignTx` (client.go, lines 173-197): compose build and sign;
reject the result when not all inputs were signed. -/
def CreateAndSignTx (w : RpcWalletController) (ext : ExternalFns)
    (o : RpcOracle) (outputs : List TxOut) (feeRatePerKb : Nat)
    (changeAddress : String) : Except String MsgTx × List RpcCall :=
  match CreateTransaction w ext o outputs feeRatePerKb changeAddress with
  | (.error e, tr) => (.error e, tr)
  | (.ok tx, tr) =>
    match SignRawTransaction w o tx with
    | (.error e, tr2) => (.error e, tr ++ tr2)
    | (.ok (fundedTx, signed), tr2) =>
      if signed then (.ok fundedTx, tr ++ tr2)
      else (.error notAllSignedMsg, tr ++ tr2)


/-- A sample native-segwit (P2WPKH) output script: `OP_0`, a 20-byte push. -/
def sampleP2wpkhScript : List Nat := 0 :: 20 :: List.replicate 20 7

/-- A sample transaction used to instantiate theorems at concrete inputs. -/
def sampleTx : MsgTx :=
  { txIn := [{ previousOutPoint := { txid := 1, vout := 0 }, witness := [[7]] }]
    txOut := [{ value := 5000, pkScript := sampleP2wpkhScript }] }

/-- A sample spendable `listunspent` row. -/
def sampleRow : ListUnspentResult :=
  { txid := 3, vout := 1, address := 0, scriptPubKey := sampleP2wpkhScript,
    amount := 100000, confirmations := 3, spendable := true }

/-- A sample backend oracle: one spendable output, successful full signing. -/
def sampleOracle : RpcOracle :=
  { listUnspent := .ok [sampleRow]
    signRawTransactionWithWallet := fun tx => .ok (tx, true)
    signRawTransactionBtcwallet := fun tx => .ok (tx, true)
    signRawTransactionWithWallet2 := fun tx _ => .ok (tx, true)
    confDetailsFromTxIndex := fun _ _ => .ok (none, TxFoundIndex) }

/-- A sample bip322 to-spend transaction with a P2WPKH output. -/
def sampleToSpend : MsgTx :=
  { txIn := [], txOut := [{ value := 0, pkScript := sampleP2wpkhScript }] }

/-- Sample external library functions. -/
def sampleExt : ExternalFns :=
  { getToSpendTx := fun _ _ => .ok sampleToSpend
    getToSignTx := fun t => t
    txHash := fun _ => 42
    newConfRequest := fun h s => .ok { txid := h, pkScript := s }
    payToAddrScript := fun _ => .ok sampleP2wpkhScript
    readCertFile := fun _ _ => .ok []
    rpcclientNew := fun _ _ _ _ => .ok () }
/-- A to-spend transaction whose only output script is not P2WPKH. -/
def nonSegwitToSpend : MsgTx :=
  { txIn := [], txOut := [{ value := 0, pkScript := [81, 3] }] }

/-- Sample externals whose bip322 to-spend transaction is not native segwit. -/
def nonSegwitExt : ExternalFns :=
  { sampleExt with getToSpendTx := fun _ _ => .ok nonSegwitToSpend }

/-- Sample externals whose to-sign construction yields `sampleTx`. -/
def toSignExt : ExternalFns :=
  { sampleExt with getToSignTx := fun _ => sampleTx }

/-- Sample oracle whose explicit-hint signing RPC fully signs `sampleTx`. -/
def fullSignOracle : RpcOracle :=
  { sampleOracle with
      signRawTransactionWithWallet2 := fun _ _ => .ok (sampleTx, true) }

/-- Sample oracle with a single tiny spendable output (100 sat). -/
def poorOracle : RpcOracle :=
  { sampleOracle with listUnspent := .ok [{ sampleRow with amount := 100 }] }


/-- C1: the confirmation status mapper sends the index-based not-found state
and the manually-not-found state to `TxNotFound`, the mempool state to
`TxInMemPool`, the found-via-index and found-manually states to `TxInChain`,
and panics (`none`) on every state outside these five. -/
theorem c1_conf_status_mapping :
    nofitierStateToWalletState TxNotFoundIndex = some TxNotFound ∧
    nofitierStateToWalletState TxNotFoundManually = some TxNotFound ∧
    nofitierStateToWalletState TxFoundMempool = some TxInMemPool ∧
    nofitierStateToWalletState TxFoundIndex = some TxInChain ∧
    nofitierStateToWalletState TxFoundManually = some TxInChain ∧
    ∀ s : TxConfStatus, s ≠ TxNotFoundIndex → s ≠ TxFoundMempool →
      s ≠ TxFoundIndex → s ≠ TxNotFoundManually → s ≠ TxFoundManually →
      nofitierStateToWalletState s = none := by
  refine ⟨rfl, rfl, rfl, rfl, rfl, ?_⟩
  intro s h1 h2 h3 h4 h5
  simp [nofitierStateToWalletState, h1, h2, h3, h4, h5]

/-- Witness for C1: the unknown raw state 7 makes the mapper panic. -/
theorem c1_conf_status_mapping_witness :
    nofitierStateToWalletState 7 = none :=
  c1_conf_status_mapping.2.2.2.2.2 7 (by decide) (by decide) (by decide)
    (by decide) (by decide)

/-- C2: with a backend variant that is neither bitcoind nor btcwallet, both
`SignRawTransaction` and `TxDetails` fail with the unsupported-backend error
and issue no backend RPC at all, and the dispatch of both depends only on the
`backend` field fixed at construction. -/
theorem c2_unsupported_backend (w : RpcWalletController) (o : RpcOracle)
    (ext : ExternalFns) (tx : MsgTx) (txh : Nat) (pkScript : List Nat)
    (hb1 : w.backend ≠ BitcoindWalletBackend)
    (hb2 : w.backend ≠ BtcwalletWalletBackend) :
    SignRawTransaction w o tx = (.error invalidBackendMsg, []) ∧
    (∀ res tr, TxDetails w ext o txh pkScript = some (res, tr) → tr = []) ∧
    (∀ req, ext.newConfRequest txh pkScript = .ok req →
      TxDetails w ext o txh pkScript =
        some ((none, TxNotFound, some invalidBackendMsg), [])) ∧
    (∀ w' : RpcWalletController, w'.backend = w.backend →
      SignRawTransaction w' o tx = SignRawTransaction w o tx ∧
      TxDetails w' ext o txh pkScript = TxDetails w ext o txh pkScript) := by
  refine ⟨?_, ?_, ?_, ?_⟩
  · simp [SignRawTransaction, hb1, hb2]
  · intro res tr h
    cases hreq : ext.newConfRequest txh pkScript with
    | error e => rw [TxDetails, hreq] at h; simp at h; exact h.2
    | ok req => rw [TxDetails, hreq] at h; simp [hb1, hb2] at h; exact h.2
  · intro req hreq
    rw [TxDetails, hreq]
    simp [hb1, hb2]
  · intro w' hw'
    constructor
    · simp only [SignRawTransaction, hw']
    · simp only [TxDetails, getTxDetails, hw']

/-- Witness for C2: a controller whose backend variant is 2. -/
theorem c2_unsupported_backend_witness :
    SignRawTransaction ⟨"", "net", 2⟩ sampleOracle sampleTx =
      (.error invalidBackendMsg, []) ∧
    TxDetails ⟨"", "net", 2⟩ sampleExt sampleOracle 9 sampleP2wpkhScript =
      some ((none, TxNotFound, some invalidBackendMsg), []) := by
  have h := c2_unsupported_backend ⟨"", "net", 2⟩ sampleOracle sampleExt
    sampleTx 9 sampleP2wpkhScript (by decide) (by decide)
  exact ⟨h.1, h.2.2.1 { txid := 9, pkScript := sampleP2wpkhScript } (by rfl)⟩

/-- C3: when the build step succeeds, `CreateAndSignTx` turns a partial
signing report (`signed = false`) into an error and returns the funded
transaction only when all inputs were signed, while the low-level
`SignRawTransaction` hands the partial-signing boolean through without
turning it into an error. -/
theorem c3_partial_signing_layering (w : RpcWalletController)
    (ext : ExternalFns) (o : RpcOracle) (outputs : List TxOut)
    (feeRatePerKb : Nat) (changeAddress : String) (tx ftx : MsgTx)
    (tr tr2 : List RpcCall)
    (hct : CreateTransaction w ext o outputs feeRatePerKb changeAddress =
      (.ok tx, tr)) :
    (SignRawTransaction w o tx = (.ok (ftx, false), tr2) →
      CreateAndSignTx w ext o outputs feeRatePerKb changeAddress =
        (.error notAllSignedMsg, tr ++ tr2)) ∧
    (SignRawTransaction w o tx = (.ok (ftx, true), tr2) →
      CreateAndSignTx w ext o outputs feeRatePerKb changeAddress =
        (.ok ftx, tr ++ tr2)) ∧
    (∀ b : Bool, w.backend = BitcoindWalletBackend →
      o.signRawTransactionWithWallet tx = .ok (ftx, b) →
      SignRawTransaction w o tx =
        (.ok (ftx, b), [.signRawTransactionWithWallet tx])) := by
  refine ⟨?_, ?_, ?_⟩
  · intro hs
    simp [CreateAndSignTx, hct, hs]
  · intro hs
    simp [CreateAndSignTx, hct, hs]
  · intro b hb ho
    simp [SignRawTransaction, hb, ho]

/-- Witness for C3: a concrete successful build followed by a full signing. -/
theorem c3_partial_signing_layering_witness :
    CreateAndSignTx ⟨"", "net", 0⟩ sampleExt sampleOracle
        [{ value := 5000, pkScript := sampleP2wpkhScript }] 2000 "addr" =
      (.ok { txIn := [{ previousOutPoint := { txid := 3, vout := 1 }, witness := [] }]
             txOut := [{ value := 5000, pkScript := sampleP2wpkhScript },
                       { value := 94560, pkScript := sampleP2wpkhScript }] },
        [.listUnspent,
          .signRawTransactionWithWallet
            { txIn := [{ previousOutPoint := { txid := 3, vout := 1 }, witness := [] }]
              txOut := [{ value := 5000, pkScript := sampleP2wpkhScript },
                        { value := 94560, pkScript := sampleP2wpkhScript }] }]) :=
  (c3_partial_signing_layering ⟨"", "net", 0⟩ sampleExt sampleOracle
    [{ value := 5000, pkScript := sampleP2wpkhScript }] 2000 "addr"
    { txIn := [{ previousOutPoint := { txid := 3, vout := 1 }, witness := [] }]
      txOut := [{ value := 5000, pkScript := sampleP2wpkhScript },
                { value := 94560, pkScript := sampleP2wpkhScript }] }
    { txIn := [{ previousOutPoint := { txid := 3, vout := 1 }, witness := [] }]
      txOut := [{ value := 5000, pkScript := sampleP2wpkhScript },
                { value := 94560, pkScript := sampleP2wpkhScript }] }
    [.listUnspent] [.signRawTransactionWithWallet
      { txIn := [{ previousOutPoint := { txid := 3, vout := 1 }, witness := [] }]
        txOut := [{ value := 5000, pkScript := sampleP2wpkhScript },
                  { value := 94560, pkScript := sampleP2wpkhScript }] }]
    (by rfl)).2.1 (by rfl)

/-- All error results of `getTxDetails` carry the `TxNotFound` status. -/
lemma getTxDetails_error_status (o : RpcOracle) (req : ConfRequest)
    (msg : String) (conf : Option TxConfirmation) (st : TxStatus) (e : String)
    (tr : List RpcCall)
    (h : getTxDetails o req msg = some ((conf, st, some e), tr)) :
    st = TxNotFound := by
  cases hc : o.confDetailsFromTxIndex req msg with
  | error e' =>
    simp only [getTxDetails, hc, Option.some.injEq, Prod.mk.injEq] at h
    exact h.1.2.1.symm
  | ok p =>
    obtain ⟨res, state⟩ := p
    simp only [getTxDetails, hc] at h
    cases hn : nofitierStateToWalletState state with
    | none => rw [hn] at h; simp at h
    | some st' => rw [hn] at h; simp at h

/-- C9: every error result of `TxDetails` (request-construction failure,
backend-lookup failure, unrecognized backend) and of its helper
`getTxDetails` carries the `TxNotFound` status, never `TxInMemPool` or
`TxInChain`. -/
theorem c9_error_paths_report_not_found (w : RpcWalletController)
    (ext : ExternalFns) (o : RpcOracle) (txh : Nat) (pkScript : List Nat) :
    (∀ conf st e tr,
      TxDetails w ext o txh pkScript = some ((conf, st, some e), tr) →
      st = TxNotFound) ∧
    (∀ req msg conf st e tr,
      getTxDetails o req msg = some ((conf, st, some e), tr) →
      st = TxNotFound) := by
  constructor
  · intro conf st e tr h
    cases hreq : ext.newConfRequest txh pkScript with
    | error e' =>
      simp only [TxDetails, hreq, Option.some.injEq, Prod.mk.injEq] at h
      exact h.1.2.1.symm
    | ok req =>
      simp only [TxDetails, hreq] at h
      by_cases hb : w.backend = BitcoindWalletBackend
      · rw [if_pos hb] at h
        exact getTxDetails_error_status o req _ conf st e tr h
      · rw [if_neg hb] at h
        by_cases hb2 : w.backend = BtcwalletWalletBackend
        · rw [if_pos hb2] at h
          exact getTxDetails_error_status o req _ conf st e tr h
        · rw [if_neg hb2] at h
          simp only [Option.some.injEq, Prod.mk.injEq] at h
          exact h.1.2.1.symm
  · intro req msg conf st e tr h
    exact getTxDetails_error_status o req msg conf st e tr h

/-- Witness for C9: the unrecognized-backend error path reports `TxNotFound`. -/
theorem c9_error_paths_report_not_found_witness :
    TxDetails ⟨"", "net", 5⟩ sampleExt sampleOracle 9 sampleP2wpkhScript =
      some ((none, TxNotFound, some invalidBackendMsg), []) ∧
    TxNotFound = TxNotFound :=
  ⟨by rfl,
    (c9_error_paths_report_not_found ⟨"", "net", 5⟩ sampleExt sampleOracle 9
      sampleP2wpkhScript).1 none TxNotFound invalidBackendMsg [] (by rfl)⟩

/-- C10: the constructor ignores its `network` string argument — the result is
identical for any two values of it — and on success the stored network name
returned by `NetworkName` is the `Name` field of the chain-parameters
argument. -/
theorem c10_network_argument_ignored (ext : ExternalFns)
    (host user pass n1 n2 wpass : String) (nodeBackend : Nat)
    (params : ChainParams) (disableTls : Bool) (rawCert certPath : String) :
    NewRpcWalletControllerFromArgs ext host user pass n1 wpass nodeBackend
        params disableTls rawCert certPath =
      NewRpcWalletControllerFromArgs ext host user pass n2 wpass nodeBackend
        params disableTls rawCert certPath ∧
    (∀ w', NewRpcWalletControllerFromArgs ext host user pass n1 wpass
        nodeBackend params disableTls rawCert certPath = .ok w' →
      NetworkName w' = params.name ∧ w'.network = params.name) := by
  constructor
  · rfl
  · intro w' h
    simp only [NewRpcWalletControllerFromArgs] at h
    split at h
    · simp at h
    · split at h
      · simp at h
      · simp only [Except.ok.injEq] at h
        subst h
        exact ⟨rfl, rfl⟩

/-- Witness for C10: two different `network` strings, same params. -/
theorem c10_network_argument_ignored_witness :
    NewRpcWalletControllerFromArgs sampleExt "h" "u" "p" "NETWORK-A" "wp" 0
        { name := "mainnet" } true "" "" =
      NewRpcWalletControllerFromArgs sampleExt "h" "u" "p" "NETWORK-B" "wp" 0
        { name := "mainnet" } true "" "" ∧
    NetworkName { walletPassphrase := "wp", network := "mainnet", backend := 0 } =
      "mainnet" :=
  ⟨(c10_network_argument_ignored sampleExt "h" "u" "p" "NETWORK-A" "NETWORK-B"
      "wp" 0 { name := "mainnet" } true "" "").1,
    ((c10_network_argument_ignored sampleExt "h" "u" "p" "NETWORK-A" "NETWORK-B"
      "wp" 0 { name := "mainnet" } true "" "").2
      { walletPassphrase := "wp", network := "mainnet", backend := 0 }
      (by rfl)).1⟩

/-- C4: whenever the bip322 to-spend transaction's output-0 script is not a
P2WPKH script, `SignBip322NativeSegwit` fails with the unsupported-address
error and its RPC trace is empty — the script check happens strictly before
any signing call. -/
theorem c4_bip322_rejects_nonsegwit (ext : ExternalFns) (o : RpcOracle)
    (msg : List Nat) (address : String) (toSpend : MsgTx) (out0 : TxOut)
    (h1 : ext.getToSpendTx msg address = .ok toSpend)
    (h2 : toSpend.txOut.head? = some out0)
    (h3 : isPayToWitnessPubKeyHash out0.pkScript = false) :
    SignBip322NativeSegwit ext o msg address =
      some (.error bip322UnsupportedMsg, []) := by
  simp only [SignBip322NativeSegwit, h1, h2, h3]
  rfl

/-- Witness for C4: a to-spend transaction whose only output script is a bare
2-byte script, which is not P2WPKH. -/
theorem c4_bip322_rejects_nonsegwit_witness :
    SignBip322NativeSegwit nonSegwitExt sampleOracle [1, 2] "addr" =
      some (.error bip322UnsupportedMsg, []) :=
  c4_bip322_rejects_nonsegwit nonSegwitExt sampleOracle [1, 2] "addr"
    nonSegwitToSpend { value := 0, pkScript := [81, 3] }
    (by rfl) (by rfl) (by decide)

/-- C5: past the script-type check, `SignBip322NativeSegwit` invokes the
explicit-value-hint signing RPC with exactly one input hint — the to-spend
transaction's hash, output index 0, the hex encoding of the to-spend output-0
script, and a zero value hint; if the signer reports partial signing it fails
with the not-wallet-controlled error naming the address, and otherwise it
returns the witness stack of input 0 of the signed to-sign transaction. -/
theorem c5_bip322_sign_call_shape (ext : ExternalFns) (o : RpcOracle)
    (msg : List Nat) (address : String) (toSpend : MsgTx) (out0 : TxOut)
    (h1 : ext.getToSpendTx msg address = .ok toSpend)
    (h2 : toSpend.txOut.head? = some out0)
    (h3 : isPayToWitnessPubKeyHash out0.pkScript = true) :
    (∀ signed : MsgTx,
      o.signRawTransactionWithWallet2 (ext.getToSignTx toSpend)
          [{ txid := ext.txHash toSpend, vout := 0,
             scriptPubKey := hexEncode out0.pkScript, amount := some 0 }] =
        .ok (signed, false) →
      SignBip322NativeSegwit ext o msg address =
        some (.error (bip322NotControlledMsg address),
          [.signRawTransactionWithWallet2 (ext.getToSignTx toSpend)
            [{ txid := ext.txHash toSpend, vout := 0,
               scriptPubKey := hexEncode out0.pkScript, amount := some 0 }]])) ∧
    (∀ signed : MsgTx, ∀ in0 : TxIn,
      o.signRawTransactionWithWallet2 (ext.getToSignTx toSpend)
          [{ txid := ext.txHash toSpend, vout := 0,
             scriptPubKey := hexEncode out0.pkScript, amount := some 0 }] =
        .ok (signed, true) →
      signed.txIn.head? = some in0 →
      SignBip322NativeSegwit ext o msg address =
        some (.ok in0.witness,
          [.signRawTransactionWithWallet2 (ext.getToSignTx toSpend)
            [{ txid := ext.txHash toSpend, vout := 0,
               scriptPubKey := hexEncode out0.pkScript, amount := some 0 }]])) := by
  constructor
  · intro signed hs
    simp only [SignBip322NativeSegwit, h1, h2, h3, hs]
    rfl
  · intro signed in0 hs hin
    simp only [SignBip322NativeSegwit, h1, h2, h3, hs, hin]
    rfl

/-- Witness for C5: a full-signing run over the sample to-spend transaction;
the returned witness stack is that of input 0 of the signed transaction. -/
theorem c5_bip322_sign_call_shape_witness :
    SignBip322NativeSegwit toSignExt fullSignOracle [1, 2] "addr" =
      some (.ok [[7]],
        [.signRawTransactionWithWallet2 sampleTx
          [{ txid := 42, vout := 0,
             scriptPubKey := hexEncode sampleP2wpkhScript, amount := some 0 }]]) :=
  (c5_bip322_sign_call_shape toSignExt fullSignOracle [1, 2] "addr"
    sampleToSpend { value := 0, pkScript := sampleP2wpkhScript }
    (by rfl) (by rfl) (by decide)).2 sampleTx
    { previousOutPoint := { txid := 1, vout := 0 }, witness := [[7]] }
    (by rfl) (by rfl)

/-- The sorted candidate list is a permutation of its input. -/
lemma sortUtxos_perm (l : List Utxo) : (sortUtxos l).Perm l :=
  List.perm_insertionSort utxoBefore l

/-- The sorted candidate list is sorted in the candidate order. -/
lemma sortUtxos_sorted (l : List Utxo) : List.Sorted utxoBefore (sortUtxos l) :=
  List.sorted_insertionSort utxoBefore l

/-- Permutations have the same total value. -/
lemma utxoTotal_perm {l1 l2 : List Utxo} (h : l1.Perm l2) :
    utxoTotal l1 = utxoTotal l2 :=
  (h.map Utxo.amount).sum_eq

/-- Reversal preserves the total value. -/
lemma utxoTotal_reverse (l : List Utxo) : utxoTotal l.reverse = utxoTotal l := by
  simp only [utxoTotal, List.map_reverse, List.sum_reverse]

/-- Total value of a cons cell. -/
lemma utxoTotal_cons (u : Utxo) (l : List Utxo) :
    utxoTotal (u :: l) = u.amount + utxoTotal l := by
  simp [utxoTotal]

/-- Two UTXO lists with pairwise distinct outpoints that are permutations of
one another and both sorted in the candidate order are equal: the candidate
order is antisymmetric on outpoint-distinct records. -/
lemma sorted_perm_eq_of_nodup_outpoints :
    ∀ l1 l2 : List Utxo, l1.Perm l2 → List.Sorted utxoBefore l1 →
      List.Sorted utxoBefore l2 → (l1.map Utxo.outPoint).Nodup → l1 = l2 := by
  intro l1
  induction l1 with
  | nil =>
    intro l2 hp _ _ _
    exact (hp.symm.eq_nil).symm
  | cons a t ih =>
    intro l2 hp hs1 hs2 hnd
    cases l2 with
    | nil => exact absurd hp.eq_nil (by simp)
    | cons b t2 =>
      have hnd' : a.outPoint ∉ t.map Utxo.outPoint ∧ (t.map Utxo.outPoint).Nodup := by
        rw [List.map_cons, List.nodup_cons] at hnd
        exact hnd
      by_cases hab : a = b
      · subst hab
        have hpt : t.Perm t2 := hp.cons_inv
        have ht := ih t2 hpt hs1.of_cons hs2.of_cons hnd'.2
        rw [ht]
      · exfalso
        have ha2 : a ∈ t2 := by
          have hmem : a ∈ b :: t2 := hp.mem_iff.mp (List.mem_cons_self a t)
          rcases List.mem_cons.mp hmem with h | h
          · exact absurd h hab
          · exact h
        have hb1 : b ∈ t := by
          have hmem : b ∈ a :: t := hp.mem_iff.mpr (List.mem_cons_self b t2)
          rcases List.mem_cons.mp hmem with h | h
          · exact absurd h.symm hab
          · exact h
        have hrab : utxoBefore a b := (List.sorted_cons.mp hs1).1 b hb1
        have hrba : utxoBefore b a := (List.sorted_cons.mp hs2).1 a ha2
        have hop : a.outPoint.txid = b.outPoint.txid ∧
            a.outPoint.vout = b.outPoint.vout := by
          unfold utxoBefore outPointLE at hrab hrba
          omega
        have hopEq : a.outPoint = b.outPoint :=
          calc a.outPoint = ⟨a.outPoint.txid, a.outPoint.vout⟩ := rfl
            _ = ⟨b.outPoint.txid, b.outPoint.vout⟩ := by rw [hop.1, hop.2]
            _ = b.outPoint := rfl
        exact hnd'.1 (List.mem_map.mpr ⟨b, hb1, hopEq.symm⟩)

/-- When the whole candidate value cannot reach the required amount for any
non-empty input count, selection fails. -/
lemma selectUtxos_eq_none (need : Nat → Nat) (S : Nat)
    (hgt : ∀ k, 1 ≤ k → S < need k) (h0 : 0 < need 0) :
    ∀ remaining acc covered, covered + utxoTotal remaining ≤ S →
      (acc = [] → covered = 0) →
      selectUtxos need remaining acc covered = none := by
  intro remaining
  induction remaining with
  | nil =>
    intro acc covered hle hacc
    have hlt : covered < need acc.length := by
      cases acc with
      | nil =>
        have hz := hacc rfl
        simpa [hz] using h0
      | cons x xs =>
        have h1 : covered ≤ S := by
          have h2 : utxoTotal ([] : List Utxo) = 0 := rfl
          omega
        have h3 := hgt (x :: xs).length (by simp)
        omega
    simp only [selectUtxos]
    rw [if_neg (Nat.not_le.mpr hlt)]
  | cons u rest ih =>
    intro acc covered hle hacc
    have hle' : covered + u.amount + utxoTotal rest ≤ S := by
      have h1 := utxoTotal_cons u rest
      omega
    have hlt : covered < need acc.length := by
      cases acc with
      | nil =>
        have hz := hacc rfl
        simpa [hz] using h0
      | cons x xs =>
        have h1 : covered ≤ S := by omega
        have h3 := hgt (x :: xs).length (by simp)
        omega
    simp only [selectUtxos]
    rw [if_neg (Nat.not_le.mpr hlt)]
    exact ih (u :: acc) (covered + u.amount) hle' (by intro h; cases h)

/-- When the full candidate value covers the requirement at the full input
count, selection succeeds. -/
lemma selectUtxos_eq_some (need : Nat → Nat) :
    ∀ remaining acc covered,
      need (acc.length + remaining.length) ≤ covered + utxoTotal remaining →
      ∃ sel cov, selectUtxos need remaining acc covered = some (sel, cov) := by
  intro remaining
  induction remaining with
  | nil =>
    intro acc covered h
    have h' : need acc.length ≤ covered := by
      have h1 : utxoTotal ([] : List Utxo) = 0 := rfl
      have h2 : acc.length + ([] : List Utxo).length = acc.length := by simp
      rw [h2] at h
      omega
    refine ⟨acc.reverse, covered, ?_⟩
    simp only [selectUtxos]
    rw [if_pos h']
  | cons u rest ih =>
    intro acc covered h
    by_cases hc : covered ≥ need acc.length
    · refine ⟨acc.reverse, covered, ?_⟩
      simp only [selectUtxos]
      rw [if_pos hc]
    · simp only [selectUtxos]
      rw [if_neg hc]
      apply ih (u :: acc) (covered + u.amount)
      have harg : (u :: acc).length + rest.length = acc.length + (u :: rest).length := by
        simp only [List.length_cons]
        omega
      rw [harg]
      have h1 := utxoTotal_cons u rest
      omega

/-- A successful selection returns the sum of the selected inputs as the
covered value, and that value meets the requirement at the selected count. -/
lemma selectUtxos_spec (need : Nat → Nat) :
    ∀ remaining acc covered sel cov, covered = utxoTotal acc →
      selectUtxos need remaining acc covered = some (sel, cov) →
      cov = utxoTotal sel ∧ need sel.length ≤ cov := by
  intro remaining
  induction remaining with
  | nil =>
    intro acc covered sel cov hcov h
    simp only [selectUtxos] at h
    by_cases hc : covered ≥ need acc.length
    · rw [if_pos hc] at h
      simp only [Option.some.injEq, Prod.mk.injEq] at h
      obtain ⟨hsel, hcv⟩ := h
      subst hsel
      subst hcv
      refine ⟨?_, ?_⟩
      · rw [utxoTotal_reverse]
        exact hcov
      · simpa [List.length_reverse] using hc
    · rw [if_neg hc] at h
      cases h
  | cons u rest ih =>
    intro acc covered sel cov hcov h
    simp only [selectUtxos] at h
    by_cases hc : covered ≥ need acc.length
    · rw [if_pos hc] at h
      simp only [Option.some.injEq, Prod.mk.injEq] at h
      obtain ⟨hsel, hcv⟩ := h
      subst hsel
      subst hcv
      refine ⟨?_, ?_⟩
      · rw [utxoTotal_reverse]
        exact hcov
      · simpa [List.length_reverse] using hc
    · rw [if_neg hc] at h
      apply ih (u :: acc) (covered + u.amount) sel cov _ h
      have h1 := utxoTotal_cons u acc
      omega

/-- The required amount is monotone in the number of inputs. -/
lemma neededFor_mono (feeRatePerKb : Nat) (outputs : List TxOut)
    (csLen target : Nat) : ∀ j k, j ≤ k →
      neededFor feeRatePerKb outputs csLen target j ≤
        neededFor feeRatePerKb outputs csLen target k := by
  intro j k hjk
  unfold neededFor feeForSize estimatedTxSize
  have hsize : 10 + 148 * j + (outputs.map outputSerializeSize).sum + (9 + csLen) ≤
      10 + 148 * k + (outputs.map outputSerializeSize).sum + (9 + csLen) := by
    omega
  exact Nat.add_le_add_left
    (Nat.div_le_div_right (Nat.mul_le_mul (Nat.le_refl feeRatePerKb) hsize)) target

/-- With a non-empty candidate list whose total value is below the request
plus the one-input fee (and a positive zero-input requirement), the builder
fails with the insufficient-funds error. -/
lemma buildTxFromOutputs_insufficient (utxos : List Utxo)
    (outputs : List TxOut) (feeRatePerKb : Nat) (cs : List Nat)
    (hne : utxos ≠ [])
    (hlow : utxoTotal utxos < outTotal outputs +
      feeForSize feeRatePerKb (estimatedTxSize 1 outputs cs.length))
    (hpos : 0 < outTotal outputs +
      feeForSize feeRatePerKb (estimatedTxSize 0 outputs cs.length)) :
    buildTxFromOutputs utxos outputs feeRatePerKb cs =
      .error insufficientFundsMsg := by
  have hempty : utxos.isEmpty = false := by
    cases utxos with
    | nil => exact absurd rfl hne
    | cons a t => rfl
  have hsel : selectUtxos
      (neededFor feeRatePerKb outputs cs.length (outTotal outputs))
      utxos [] 0 = none := by
    apply selectUtxos_eq_none _ (utxoTotal utxos)
    · intro k hk
      have hmono := neededFor_mono feeRatePerKb outputs cs.length
        (outTotal outputs) 1 k hk
      have e1 : neededFor feeRatePerKb outputs cs.length (outTotal outputs) 1 =
          outTotal outputs +
            feeForSize feeRatePerKb (estimatedTxSize 1 outputs cs.length) := rfl
      omega
    · have e0 : neededFor feeRatePerKb outputs cs.length (outTotal outputs) 0 =
          outTotal outputs +
            feeForSize feeRatePerKb (estimatedTxSize 0 outputs cs.length) := rfl
      omega
    · omega
    · intro _
      rfl
  simp only [buildTxFromOutputs, hempty, Bool.false_eq_true, if_false, hsel]

/-- With a non-empty candidate list whose total value covers the request plus
the fee at the full input count, the builder succeeds, the covered value is
the sum of the selected inputs, and the built transaction spends the selected
outpoints with a change output appended exactly when the remainder reaches
the dust threshold. -/
lemma buildTxFromOutputs_success (utxos : List Utxo) (outputs : List TxOut)
    (feeRatePerKb : Nat) (cs : List Nat)
    (hne : utxos ≠ [])
    (henough : neededFor feeRatePerKb outputs cs.length (outTotal outputs)
      utxos.length ≤ utxoTotal utxos) :
    ∃ sel cov,
      selectUtxos (neededFor feeRatePerKb outputs cs.length (outTotal outputs))
        utxos [] 0 = some (sel, cov) ∧
      cov = utxoTotal sel ∧
      neededFor feeRatePerKb outputs cs.length (outTotal outputs) sel.length ≤
        cov ∧
      buildTxFromOutputs utxos outputs feeRatePerKb cs = .ok
        ⟨sel.map (fun u => ⟨u.outPoint, []⟩),
          if dustThreshold ≤ cov - outTotal outputs - feeForSize feeRatePerKb
              (estimatedTxSize sel.length outputs cs.length) then
            outputs ++ [⟨cov - outTotal outputs - feeForSize feeRatePerKb
              (estimatedTxSize sel.length outputs cs.length), cs⟩]
          else outputs⟩ := by
  have hempty : utxos.isEmpty = false := by
    cases utxos with
    | nil => exact absurd rfl hne
    | cons a t => rfl
  obtain ⟨sel, cov, hsel⟩ := selectUtxos_eq_some
    (neededFor feeRatePerKb outputs cs.length (outTotal outputs)) utxos [] 0
    (by simpa using henough)
  obtain ⟨hcov, hneed⟩ := selectUtxos_spec _ utxos [] 0 sel cov rfl hsel
  refine ⟨sel, cov, hsel, hcov, hneed, ?_⟩
  simp only [buildTxFromOutputs, hempty, Bool.false_eq_true, if_false, hsel]

/-- C6: `CreateTransaction` hands the transaction builder exactly the
spendable rows of the snapshot, sorted by value descending with the outpoint
tie-break; the candidate list is sorted in that order, contains only
spendable rows, and is the same for any two snapshots that are permutations
of one another (distinct outpoints), so identical snapshots select identical
inputs on repeated calls. -/
theorem c6_selection_deterministic (w : RpcWalletController)
    (ext : ExternalFns) (o : RpcOracle) (outputs : List TxOut)
    (feeRatePerKb : Nat) (addr : String) (results : List ListUnspentResult)
    (utxos : List Utxo)
    (hlist : o.listUnspent = .ok results)
    (hconv : resultsToUtxos results true = .ok utxos) :
    (∀ cs, ext.payToAddrScript addr = .ok cs →
      CreateTransaction w ext o outputs feeRatePerKb addr =
        (buildTxFromOutputs (sortUtxos utxos) outputs feeRatePerKb cs,
          [.listUnspent])) ∧
    (∀ u ∈ sortUtxos utxos, ∃ r ∈ results, r.spendable = true ∧
      u = { amount := r.amount, outPoint := { txid := r.txid, vout := r.vout },
            pkScript := r.scriptPubKey }) ∧
    List.Sorted utxoBefore (sortUtxos utxos) ∧
    (∀ l2 : List Utxo, utxos.Perm l2 → (utxos.map Utxo.outPoint).Nodup →
      sortUtxos utxos = sortUtxos l2) ∧
    CreateTransaction w ext o outputs feeRatePerKb addr =
      CreateTransaction w ext o outputs feeRatePerKb addr := by
  refine ⟨?_, ?_, sortUtxos_sorted utxos, ?_, rfl⟩
  · intro cs hcs
    simp only [CreateTransaction, hlist, hconv, hcs]
    cases hb : buildTxFromOutputs (sortUtxos utxos) outputs feeRatePerKb cs <;>
      simp [hb]
  · intro u hu
    have hu' : u ∈ utxos := ((sortUtxos_perm utxos).mem_iff).mp hu
    simp only [resultsToUtxos, Except.ok.injEq] at hconv
    rw [← hconv] at hu'
    simp only [List.mem_map, List.mem_filter] at hu'
    obtain ⟨r, ⟨hrm, hsp⟩, hEq⟩ := hu'
    simp only [Bool.not_true, Bool.false_or] at hsp
    exact ⟨r, hrm, hsp, hEq.symm⟩
  · intro l2 hperm hnd
    apply sorted_perm_eq_of_nodup_outpoints
    · exact (sortUtxos_perm utxos).trans (hperm.trans (sortUtxos_perm l2).symm)
    · exact sortUtxos_sorted utxos
    · exact sortUtxos_sorted l2
    · exact ((sortUtxos_perm utxos).map Utxo.outPoint).nodup_iff.mpr hnd

/-- Witness for C6: the sample snapshot's candidate list is sorted. -/
theorem c6_selection_deterministic_witness :
    List.Sorted utxoBefore (sortUtxos
      [{ amount := 100000, outPoint := { txid := 3, vout := 1 },
         pkScript := sampleP2wpkhScript }]) :=
  (c6_selection_deterministic ⟨"", "net", 0⟩ sampleExt sampleOracle [] 0 "addr"
    [sampleRow]
    [{ amount := 100000, outPoint := { txid := 3, vout := 1 },
       pkScript := sampleP2wpkhScript }]
    (by rfl) (by rfl)).2.2.1

/-- C7: with an empty eligible UTXO set `CreateTransaction` fails with the
no-usable-funds error; with a non-empty set whose total value is below the
request plus the minimal (one-input) fee it fails with the insufficient-funds
error; in every case the only backend call is the read-only `listunspent`
query — nothing is broadcast or persisted. -/
theorem c7_fund_errors (w : RpcWalletController) (ext : ExternalFns)
    (o : RpcOracle) (outputs : List TxOut) (feeRatePerKb : Nat) (addr : String)
    (results : List ListUnspentResult) (utxos : List Utxo) (cs : List Nat)
    (hlist : o.listUnspent = .ok results)
    (hconv : resultsToUtxos results true = .ok utxos)
    (hcs : ext.payToAddrScript addr = .ok cs) :
    (utxos = [] →
      CreateTransaction w ext o outputs feeRatePerKb addr =
        (.error noUsableFundsMsg, [.listUnspent])) ∧
    (utxos ≠ [] →
      utxoTotal utxos < outTotal outputs +
        feeForSize feeRatePerKb (estimatedTxSize 1 outputs cs.length) →
      0 < outTotal outputs +
        feeForSize feeRatePerKb (estimatedTxSize 0 outputs cs.length) →
      CreateTransaction w ext o outputs feeRatePerKb addr =
        (.error insufficientFundsMsg, [.listUnspent])) ∧
    (∀ res tr, CreateTransaction w ext o outputs feeRatePerKb addr =
      (res, tr) → tr = [.listUnspent]) := by
  refine ⟨?_, ?_, ?_⟩
  · intro h
    subst h
    simp only [CreateTransaction, hlist, hconv, hcs]
    rfl
  · intro hne hlow hpos
    have hperm := sortUtxos_perm utxos
    have hne' : sortUtxos utxos ≠ [] := by
      intro hnil
      rw [hnil] at hperm
      exact hne hperm.symm.eq_nil
    have htot : utxoTotal (sortUtxos utxos) = utxoTotal utxos :=
      utxoTotal_perm hperm
    have hbuild := buildTxFromOutputs_insufficient (sortUtxos utxos) outputs
      feeRatePerKb cs hne' (by omega) hpos
    simp only [CreateTransaction, hlist, hconv, hcs, hbuild]
  · intro res tr h
    simp only [CreateTransaction, hlist, hconv, hcs] at h
    cases hb : buildTxFromOutputs (sortUtxos utxos) outputs feeRatePerKb cs with
    | error e =>
      rw [hb] at h
      simp only [Prod.mk.injEq] at h
      exact h.2.symm
    | ok tx =>
      rw [hb] at h
      simp only [Prod.mk.injEq] at h
      exact h.2.symm

/-- Witness for C7: one 100-sat output cannot cover a 5000-sat request. -/
theorem c7_fund_errors_witness :
    CreateTransaction ⟨"", "net", 0⟩ sampleExt poorOracle
        [{ value := 5000, pkScript := sampleP2wpkhScript }] 2000 "addr" =
      (.error insufficientFundsMsg, [.listUnspent]) :=
  (c7_fund_errors ⟨"", "net", 0⟩ sampleExt poorOracle
    [{ value := 5000, pkScript := sampleP2wpkhScript }] 2000 "addr"
    [{ sampleRow with amount := 100 }]
    [{ amount := 100, outPoint := { txid := 3, vout := 1 },
       pkScript := sampleP2wpkhScript }]
    sampleP2wpkhScript (by rfl) (by rfl) (by rfl)).2.1
    (by decide) (by decide) (by decide)

/-- C8: when the non-empty eligible set's total value covers the requested
total plus the size-implied fee, `CreateTransaction` succeeds; the selected
input value equals the transaction's output value (change included) plus the
fee plus a slack below the dust threshold; the change output for the
remainder is appended exactly when the remainder reaches the dust threshold
(slack 0), and is omitted entirely otherwise (the sub-dust remainder is the
slack). -/
theorem c8_build_success_accounting (w : RpcWalletController)
    (ext : ExternalFns) (o : RpcOracle) (outputs : List TxOut)
    (feeRatePerKb : Nat) (addr : String) (results : List ListUnspentResult)
    (utxos : List Utxo) (cs : List Nat)
    (hlist : o.listUnspent = .ok results)
    (hconv : resultsToUtxos results true = .ok utxos)
    (hcs : ext.payToAddrScript addr = .ok cs)
    (hne : utxos ≠ [])
    (henough : neededFor feeRatePerKb outputs cs.length (outTotal outputs)
      utxos.length ≤ utxoTotal utxos) :
    ∃ tx sel slack,
      CreateTransaction w ext o outputs feeRatePerKb addr =
        (.ok tx, [.listUnspent]) ∧
      tx.txIn = sel.map (fun u => (⟨u.outPoint, []⟩ : TxIn)) ∧
      outTotal outputs +
        feeForSize feeRatePerKb (estimatedTxSize sel.length outputs cs.length) ≤
        utxoTotal sel ∧
      utxoTotal sel = outTotal tx.txOut +
        feeForSize feeRatePerKb (estimatedTxSize sel.length outputs cs.length) +
        slack ∧
      slack < dustThreshold ∧
      (dustThreshold ≤ utxoTotal sel - outTotal outputs -
          feeForSize feeRatePerKb
            (estimatedTxSize sel.length outputs cs.length) →
        tx.txOut = outputs ++ [(⟨utxoTotal sel - outTotal outputs -
          feeForSize feeRatePerKb
            (estimatedTxSize sel.length outputs cs.length), cs⟩ : TxOut)] ∧
        slack = 0) ∧
      (utxoTotal sel - outTotal outputs -
          feeForSize feeRatePerKb
            (estimatedTxSize sel.length outputs cs.length) < dustThreshold →
        tx.txOut = outputs ∧ slack = utxoTotal sel - outTotal outputs -
          feeForSize feeRatePerKb
            (estimatedTxSize sel.length outputs cs.length)) := by
  have hperm := sortUtxos_perm utxos
  have hne' : sortUtxos utxos ≠ [] := by
    intro hnil
    rw [hnil] at hperm
    exact hne hperm.symm.eq_nil
  have htot : utxoTotal (sortUtxos utxos) = utxoTotal utxos :=
    utxoTotal_perm hperm
  have hlen : (sortUtxos utxos).length = utxos.length := hperm.length_eq
  have henough' : neededFor feeRatePerKb outputs cs.length (outTotal outputs)
      (sortUtxos utxos).length ≤ utxoTotal (sortUtxos utxos) := by
    rw [hlen, htot]
    exact henough
  obtain ⟨sel, cov, hsel, hcov, hneed, hbuild⟩ :=
    buildTxFromOutputs_success (sortUtxos utxos) outputs feeRatePerKb cs
      hne' henough'
  subst hcov
  have e : neededFor feeRatePerKb outputs cs.length (outTotal outputs)
      sel.length = outTotal outputs +
        feeForSize feeRatePerKb (estimatedTxSize sel.length outputs cs.length) :=
    rfl
  have houtfee : outTotal outputs +
      feeForSize feeRatePerKb (estimatedTxSize sel.length outputs cs.length) ≤
      utxoTotal sel := by
    rw [← e]
    exact hneed
  have hdustpos : 0 < dustThreshold := by decide
  by_cases hdust : dustThreshold ≤ utxoTotal sel - outTotal outputs -
      feeForSize feeRatePerKb (estimatedTxSize sel.length outputs cs.length)
  · rw [if_pos hdust] at hbuild
    refine ⟨⟨sel.map (fun u => ⟨u.outPoint, []⟩),
      outputs ++ [(⟨utxoTotal sel - outTotal outputs - feeForSize feeRatePerKb
        (estimatedTxSize sel.length outputs cs.length), cs⟩ : TxOut)]⟩,
      sel, 0, ?_, rfl, houtfee, ?_, hdustpos, ?_, ?_⟩
    · simp only [CreateTransaction, hlist, hconv, hcs, hbuild]
    · show utxoTotal sel = outTotal (outputs ++
        [(⟨utxoTotal sel - outTotal outputs - feeForSize feeRatePerKb
          (estimatedTxSize sel.length outputs cs.length), cs⟩ : TxOut)]) +
        feeForSize feeRatePerKb (estimatedTxSize sel.length outputs cs.length) + 0
      have happ : outTotal (outputs ++
          [(⟨utxoTotal sel - outTotal outputs - feeForSize feeRatePerKb
            (estimatedTxSize sel.length outputs cs.length), cs⟩ : TxOut)]) =
          outTotal outputs + (utxoTotal sel - outTotal outputs -
            feeForSize feeRatePerKb
              (estimatedTxSize sel.length outputs cs.length)) := by
        simp [outTotal]
      omega
    · intro _
      exact ⟨rfl, rfl⟩
    · intro hlt
      exact absurd hdust (Nat.not_le.mpr hlt)
  · rw [if_neg hdust] at hbuild
    have hlt := Nat.lt_of_not_le hdust
    refine ⟨⟨sel.map (fun u => ⟨u.outPoint, []⟩), outputs⟩, sel,
      utxoTotal sel - outTotal outputs - feeForSize feeRatePerKb
        (estimatedTxSize sel.length outputs cs.length),
      ?_, rfl, houtfee, ?_, hlt, ?_, ?_⟩
    · simp only [CreateTransaction, hlist, hconv, hcs, hbuild]
    · show utxoTotal sel = outTotal outputs +
        feeForSize feeRatePerKb (estimatedTxSize sel.length outputs cs.length) +
        (utxoTotal sel - outTotal outputs - feeForSize feeRatePerKb
          (estimatedTxSize sel.length outputs cs.length))
      omega
    · intro hge
      exact absurd hge hdust
    · intro _
      exact ⟨rfl, rfl⟩

/-- Witness for C8: the sample scenario (one 100000-sat input, one 5000-sat
output at fee rate 2000/kvB) succeeds with a change output. -/
theorem c8_build_success_accounting_witness :
    ∃ tx sel slack,
      CreateTransaction ⟨"", "net", 0⟩ sampleExt sampleOracle
          [{ value := 5000, pkScript := sampleP2wpkhScript }] 2000 "addr" =
        (.ok tx, [.listUnspent]) ∧
      tx.txIn = sel.map (fun u => (⟨u.outPoint, []⟩ : TxIn)) ∧
      outTotal [{ value := 5000, pkScript := sampleP2wpkhScript }] +
        feeForSize 2000 (estimatedTxSize sel.length
          [{ value := 5000, pkScript := sampleP2wpkhScript }]
          sampleP2wpkhScript.length) ≤ utxoTotal sel ∧
      utxoTotal sel = outTotal tx.txOut +
        feeForSize 2000 (estimatedTxSize sel.length
          [{ value := 5000, pkScript := sampleP2wpkhScript }]
          sampleP2wpkhScript.length) + slack ∧
      slack < dustThreshold ∧
      (dustThreshold ≤ utxoTotal sel -
          outTotal [{ value := 5000, pkScript := sampleP2wpkhScript }] -
          feeForSize 2000 (estimatedTxSize sel.length
            [{ value := 5000, pkScript := sampleP2wpkhScript }]
            sampleP2wpkhScript.length) →
        tx.txOut = [{ value := 5000, pkScript := sampleP2wpkhScript }] ++
          [(⟨utxoTotal sel -
            outTotal [{ value := 5000, pkScript := sampleP2wpkhScript }] -
            feeForSize 2000 (estimatedTxSize sel.length
              [{ value := 5000, pkScript := sampleP2wpkhScript }]
              sampleP2wpkhScript.length), sampleP2wpkhScript⟩ : TxOut)] ∧
        slack = 0) ∧
      (utxoTotal sel -
          outTotal [{ value := 5000, pkScript := sampleP2wpkhScript }] -
          feeForSize 2000 (estimatedTxSize sel.length
            [{ value := 5000, pkScript := sampleP2wpkhScript }]
            sampleP2wpkhScript.length) < dustThreshold →
        tx.txOut = [{ value := 5000, pkScript := sampleP2wpkhScript }] ∧
        slack = utxoTotal sel -
          outTotal [{ value := 5000, pkScript := sampleP2wpkhScript }] -
          feeForSize 2000 (estimatedTxSize sel.length
            [{ value := 5000, pkScript := sampleP2wpkhScript }]
            sampleP2wpkhScript.length)) :=
  c8_build_success_accounting ⟨"", "net", 0⟩ sampleExt sampleOracle
    [{ value := 5000, pkScript := sampleP2wpkhScript }] 2000 "addr"
    [sampleRow]
    [{ amount := 100000, outPoint := { txid := 3, vout := 1 },
       pkScript := sampleP2wpkhScript }]
    sampleP2wpkhScript (by rfl) (by rfl) (by rfl) (by decide) (by decide)
